import Mathlib

/-
Shallow embedding of the dino-rs request-dispatch and tenant-lifecycle
subsystem (dino-server, dino-macros, dino CLI utils), translated from the
Rust source.  Maps are association lists, channels are lists consumed in
FIFO order, and the interleavings relevant to the concurrency claims are
made explicit as schedule parameters.  All bodies considered are UTF-8
text, so HTTP bodies are modelled as `String` (the non-UTF-8 decode path
is not exercised by any claim).
-/

namespace Dino

/-- HTTP methods, from `axum::http::Method` as used in
`dino-server/src/config.rs` and `router.rs` (the fixed nine-method set). -/
inductive Method where
  | get | post | put | del | patch | hd | opt | connect | trace
deriving DecidableEq, Repr

/-- Model of `MethodRoute` from `dino-server/src/router.rs`: one optional handler
name per method, all fields defaulting to `None`. -/
structure MethodRoute where
  get : Option String := none
  post : Option String := none
  put : Option String := none
  del : Option String := none
  patch : Option String := none
  hd : Option String := none
  opt : Option String := none
  connect : Option String := none
  trace : Option String := none
deriving DecidableEq, Repr

/-- The per-method assignment done in the match in `SwappableAppRouter::get_router`: `method_route.<field> = Some(handler)`. -/
def MethodRoute.set (mr : MethodRoute) (m : Method) (handler : String) : MethodRoute :=
  match m with
  | .get => { mr with get := some handler }
  | .post => { mr with post := some handler }
  | .put => { mr with put := some handler }
  | .del => { mr with del := some handler }
  | .patch => { mr with patch := some handler }
  | .hd => { mr with hd := some handler }
  | .opt => { mr with opt := some handler }
  | .connect => { mr with connect := some handler }
  | .trace => { mr with trace := some handler }

/-- The per-method field read done in the match in `AppRouter::match_it`
(`ret.value.<field>.as_deref()`). -/
def MethodRoute.lookup (mr : MethodRoute) (m : Method) : Option String :=
  match m with
  | .get => mr.get
  | .post => mr.post
  | .put => mr.put
  | .del => mr.del
  | .patch => mr.patch
  | .hd => mr.hd
  | .opt => mr.opt
  | .connect => mr.connect
  | .trace => mr.trace

/-- Model of `ProjectRoute` from `dino-server/src/config.rs`. -/
structure ProjectRoute where
  method : Method
  handler : String
deriving DecidableEq, Repr

/-- Model of `ProjectRoutes = IndexMap<String, Vec<ProjectRoute>>`: an ordered map,
modelled as an association list in insertion order. -/
abbrev ProjectRoutes := List (String × List ProjectRoute)

/-- One segment of a matchit path pattern: a literal, or a `{name}`
capture binding a single segment. -/
inductive Seg where
  | lit (s : String)
  | cap (name : String)
deriving DecidableEq, Repr

/-- Splitting a character list on a separator character, the semantics of
`str.split` at a one-character separator (and of `String.splitOn` at
`"/"`): `"".split` is `[""]`, a leading separator yields a leading empty
group.  Structural recursion so that concrete routes evaluate in the
kernel. -/
def splitOnChar (sep : Char) : List Char → List (List Char)
  | [] => [[]]
  | c :: cs =>
    match splitOnChar sep cs with
    | [] => [[]]
    | g :: gs => if c = sep then [] :: g :: gs else (c :: g) :: gs

/-- Parse one pattern segment: `\x7bname\x7d` is a capture, anything else
a literal (the `startsWith`/`endsWith` brace test of matchit). -/
def parseSeg (s : List Char) : Seg :=
  match s with
  | '\x7b' :: rest =>
    if rest.getLast? = some '\x7d' then .cap (String.mk rest.dropLast)
    else .lit (String.mk s)
  | _ => .lit (String.mk s)

def parsePattern (p : String) : List Seg :=
  (splitOnChar '/' p.data).map parseSeg

/-- Segment-wise matching of a pattern against the `/`-split path:
literals bind exactly, captures bind one segment to their name.  This is
the matchit trie semantics restricted to the literal/capture patterns the
repository uses (no catch-all is registered in any tenant router). -/
def matchSegs : List Seg → List String → Option (List (String × String))
  | [], [] => some []
  | .lit s :: ps, x :: xs => if s = x then matchSegs ps xs else none
  | .cap n :: ps, x :: xs => (matchSegs ps xs).map (fun params => (n, x) :: params)
  | _, _ => none

/-- Model of `matchit::Router<MethodRoute>`, as the ordered list of inserted
(pattern, value) pairs. -/
abbrev MRouter := List (String × MethodRoute)

/-- Model of `Router::at(path)`: find the pattern matching the path and return its
value together with the bound capture parameters.  The routers exercised
here have pairwise non-overlapping patterns, so first-match is the answer of the trie. -/
def routerAt (router : MRouter) (path : String) :
    Option (MethodRoute × List (String × String)) :=
  match router with
  | [] => none
  | (pat, mr) :: rest =>
    match matchSegs (parsePattern pat) ((splitOnChar '/' path.data).map String.mk) with
    | some params => some (mr, params)
    | none => routerAt rest path

/-- Model of `matchit::Router::insert`: fails on a conflicting (here: duplicate)
pattern, otherwise records the (pattern, value) pair. -/
def routerInsert (router : MRouter) (pat : String) (mr : MethodRoute) :
    Except String MRouter :=
  if (router.map Prod.fst).contains pat then
    .error ("conflicting route: " ++ pat)
  else
    .ok (router ++ [(pat, mr)])

/-- Model of `AppRouter` from `dino-server/src/router.rs`: the immutable snapshot
of a built route table plus the bundled code. -/
structure AppRouter where
  routes : MRouter
  code : String
deriving DecidableEq, Repr

/-- The inner loop of `SwappableAppRouter::get_router`: fold the route
entries of one path into a `MethodRoute`, starting from the default. -/
def buildMethodRoute (methods : List ProjectRoute) : MethodRoute :=
  methods.foldl (fun mr pr => mr.set pr.method pr.handler) {}

/-- Model of `SwappableAppRouter::get_router`: build the matchit router from the
ordered `ProjectRoutes`. -/
def getRouter (routes : ProjectRoutes) : Except String MRouter :=
  routes.foldlM (fun router entry =>
    routerInsert router entry.1 (buildMethodRoute entry.2)) ([] : MRouter)

/-- Model of `SwappableAppRouter::try_new`: build the router and seat the first
snapshot. -/
def tryNew (code : String) (routes : ProjectRoutes) : Except String AppRouter := do
  let router ← getRouter routes
  .ok { routes := router, code := code }

/-- The snapshot installed by `SwappableAppRouter::swap`: build the new
router and replace the current snapshot wholesale. -/
def swapSnapshot (code : String) (routes : ProjectRoutes) : Except String AppRouter :=
  tryNew code routes

/-- Model of `AppError` from `dino-server/src/error.rs` (payloads kept as the
formatted message strings). -/
inductive AppError where
  | hostNotFound (msg : String)
  | routePathNotFound (msg : String)
  | routeMethodNotAllowed (msg : String)
  | anyhow (msg : String)
  | serde (msg : String)
deriving DecidableEq, Repr

/-- The status chosen by `impl IntoResponse for AppError`. -/
def AppError.statusCode : AppError → Nat
  | .hostNotFound _ => 404
  | .routePathNotFound _ => 404
  | .routeMethodNotAllowed _ => 405
  | .anyhow _ => 500
  | .serde _ => 500

/-- Model of `AppRouter::match_it`: path lookup, then method-field lookup.  Both
failures are plain `anyhow!` errors (strings), not `AppError` variants. -/
def matchIt (r : AppRouter) (m : Method) (path : String) :
    Except String (String × List (String × String)) :=
  match routerAt r.routes path with
  | none => .error ("No route found for path: " ++ path)
  | some (mr, params) =>
    match mr.lookup m with
    | none => .error "No handler found for method"
    | some handler => .ok (handler, params)

/-- Model of `Req` from `dino-server/src/engine.rs` (maps as association lists). -/
structure Req where
  headers : List (String × String)
  query : List (String × String)
  params : List (String × String)
  body : Option String
  url : String
  method : String
deriving DecidableEq, Repr

/-- Model of `Resp` from `dino-server/src/engine.rs`.  `status` is the raw `u16`
the interpreter produced; the struct itself enforces no HTTP range. -/
structure Resp where
  status : Nat
  headers : List (String × String)
  body : Option String
deriving DecidableEq, Repr

/-- Interpreter values, as far as the marshalling layer inspects them:
undefined, null, strings, (integer) numbers and plain objects. -/
inductive JSVal where
  | undefv
  | nullv
  | vstr (s : String)
  | vnum (n : Nat)
  | vobj (fields : List (String × JSVal))
deriving Repr

/-- Model of `Object::get(name)`: property access, yielding `undefined` for an
absent property.  (Only ever applied to objects by the code modelled
here.) -/
def objGet (v : JSVal) (key : String) : JSVal :=
  match v with
  | .vobj fields =>
    match fields.find? (fun kv => kv.1 = key) with
    | some kv => kv.2
    | none => .undefv
  | _ => .undefv

/-- rquickjs `IntoJs` for `HashMap<String, String>`: a plain object with
one string property per entry. -/
def mapIntoJs (m : List (String × String)) : JSVal :=
  .vobj (m.map (fun kv => (kv.1, .vstr kv.2)))

/-- rquickjs `IntoJs` for `Option<String>`: `None` becomes `undefined`. -/
def optStrIntoJs : Option String → JSVal
  | none => .undefv
  | some s => .vstr s

/-- The `IntoJs` impl generated by `dino_macros::IntoJs` for `Req`
(`dino-macros/src/process.rs`, `process_into_js`): set each field on a
fresh object, in struct declaration order. -/
def Req.intoJs (r : Req) : JSVal :=
  .vobj [("headers", mapIntoJs r.headers), ("query", mapIntoJs r.query),
         ("params", mapIntoJs r.params), ("body", optStrIntoJs r.body),
         ("url", .vstr r.url), ("method", .vstr r.method)]

/-- rquickjs `FromJs` for `u16`: an integer number that fits in `u16`;
anything else is a conversion error. -/
def u16FromJs : JSVal → Except String Nat
  | .vnum n => if n < 65536 then .ok n else .error "u16 overflow"
  | _ => .error "cannot convert value to u16"

/-- rquickjs `FromJs` for `HashMap<String, String>`: the value must be an
object (undefined or null is a type error, there is no empty default) and
every property value must convert to a string. -/
def strMapFromJs : JSVal → Except String (List (String × String))
  | .vobj fields =>
    fields.mapM (fun kv =>
      match kv.2 with
      | .vstr s => .ok (kv.1, s)
      | _ => .error "cannot convert property to string")
  | _ => .error "cannot convert value to object"

/-- rquickjs `FromJs` for `Option<String>`: null and undefined give
`None`, a string gives `Some`. -/
def optStrFromJs : JSVal → Except String (Option String)
  | .undefv => .ok none
  | .nullv => .ok none
  | .vstr s => .ok (some s)
  | _ => .error "cannot convert value to string"

/-- The `FromJs` impl generated by `dino_macros::FromJs` for `Resp`
(`process_from_js`): `let <field> = obj.get("<field>")?;` for each field
in struct order — every get is required, none has a default. -/
def respFromJs (v : JSVal) : Except String Resp :=
  match v with
  | .vobj _ => do
    let status ← u16FromJs (objGet v "status")
    let headers ← strMapFromJs (objGet v "headers")
    let body ← optStrFromJs (objGet v "body")
    .ok { status := status, headers := headers, body := body }
  | _ => .error "value is not an object"

/-- Handler table of a bundle: the object the evaluated module returns,
each handler a function from the request value to a result value (an
`Except.error` models a thrown interpreter exception). -/
abbrev Handlers := List (String × (JSVal → Except String JSVal))

/-- Model of `JsWorker::run`: look up `handlers[name]` (an absent name fails the
`Function` conversion), call it with the marshalled request, and convert
the settled result via `FromJs` for `Resp`. -/
def JsWorker.run (handlers : Handlers) (name : String) (req : Req) :
    Except String Resp :=
  match handlers.find? (fun kv => kv.1 = name) with
  | none => .error ("handler not found: " ++ name)
  | some (_, f) => do
    let v ← f (Req.intoJs req)
    respFromJs v

/-- The HTTP response finally written to the client. -/
structure HttpResponse where
  status : Nat
  headers : List (String × String)
  body : String
deriving DecidableEq, Repr

/-- Model of `impl From<Resp> for Response` (`engine.rs`):
`Response::builder().status(res.status)` accepts exactly the `u16` values
`http::StatusCode` admits, 100..=999; the final `.unwrap()` panics for any
other status.  A panic is modelled as `none`.  (Header-name validity is
not modelled; every header exercised here is a valid token.) -/
def respToResponse (r : Resp) : Option HttpResponse :=
  if 100 ≤ r.status ∧ r.status ≤ 999 then
    some { status := r.status, headers := r.headers,
           body := match r.body with | some b => b | none => "" }
  else
    none

/- Dispatch pipeline (`dino-server/src/lib.rs`). -/

/-- An incoming HTTP request as the axum extractors hand it to `handler`:
host (as extracted, possibly with `:port`), method, URI path, query map,
header map and a UTF-8 body (empty string = empty `Bytes`). -/
structure IncomingRequest where
  host : String
  method : Method
  path : String
  query : List (String × String)
  headers : List (String × String)
  body : String
deriving Repr

/-- Model of Model of the statement `host.split_off(host.find(COLON).unwrap_or(host.len()))`, with COLON the colon character: truncate the
host at the first `:`, keeping the prefix. -/
def normalizeHost (host : String) : String :=
  String.mk (host.data.takeWhile (fun c => c ≠ ':'))

/-- Model of `get_router` in `lib.rs`: look the host up in the tenant map; an
unknown host produces `AppError::RoutePathNotFound(host)`.  The value of each tenant is its currently loaded `AppRouter` snapshot (a single consistent
load; the double-`load_full` race is modelled separately below). -/
def getRouterForHost (routers : List (String × AppRouter)) (host : String) :
    Except AppError AppRouter :=
  match routers.find? (fun kv => kv.1 = host) with
  | some kv => .ok kv.2
  | none => .error (.routePathNotFound host)

/-- The `?` conversion of an `anyhow::Error` into `AppError` through
`#[from] anyhow::Error`: every anyhow failure becomes `AppError::Anyhow`. -/
def anyhowToApp {α : Type} : Except String α → Except AppError α
  | .error e => .error (.anyhow e)
  | .ok a => .ok a

/-- Canonical uppercase name of each method (`method.to_string()`). -/
def methodName : Method → String
  | .get => "GET" | .post => "POST" | .put => "PUT" | .del => "DELETE"
  | .patch => "PATCH" | .hd => "HEAD" | .opt => "OPTIONS"
  | .connect => "CONNECT" | .trace => "TRACE"

/-- Model of `assemble_req`: params from the match, body `None` iff the bytes are
empty (bodies here are UTF-8, so decoding always succeeds), url from the
URI, the canonical method name — and `headers(HashMap::new())`: the actual
request headers are not forwarded. -/
def assembleReq (rq : IncomingRequest) (params : List (String × String)) : Req :=
  { headers := []
    query := rq.query
    params := params
    body := if rq.body = "" then none else some rq.body
    url := rq.path
    method := methodName rq.method }

/-- The body of `handler` in `lib.rs`, up to the `Resp` it converts into
the HTTP response: normalise the host, look up the tenant router, match
path and method, assemble the request and send it to the worker.  `send`
stands for `AppState::send` (whose failures are anyhow errors). -/
def handlerPipeline (routers : List (String × AppRouter))
    (send : String → String → Req → Except String Resp)
    (rq : IncomingRequest) : Except AppError Resp := do
  let host := normalizeHost rq.host
  let router ← getRouterForHost routers host
  let matched ← anyhowToApp (matchIt router rq.method rq.path)
  let req := assembleReq rq matched.2
  anyhowToApp (send host matched.1 req)

/-- The status the client sees: the `AppError` mapping on the error path,
the `Resp` status on success. -/
def handlerHttpStatus (routers : List (String × AppRouter))
    (send : String → String → Req → Except String Resp)
    (rq : IncomingRequest) : Nat :=
  match handlerPipeline routers send rq with
  | .error e => e.statusCode
  | .ok r => r.status

/- Worker loop and registry (`dino-server/src/lib.rs`). -/

/-- Model of `WorkerMessage`: a request (handler name plus marshalled request) or
`Shutdown`.  The one-shot reply sender is implicit: a reply is delivered
exactly when the loop sends on it. -/
inductive WorkerMessage where
  | request (handler : String) (req : Req)
  | shutdown
deriving Repr

/-- Model of Receive loop of `jsworker_execute` over the messages the inbox will
ever carry, in FIFO order.  Returns the replies delivered (in order) and
the own result of the loop.  On a handler error the source applies `?` to
`worker.run(..)?`: the loop returns that error — no reply is sent for the
failing request and no later message is processed.  On `Shutdown` the
loop returns `Ok(())` immediately; an exhausted (closed) inbox also ends
the loop with `Ok(())`. -/
def jsworkerExecute (handlers : Handlers) :
    List WorkerMessage → List Resp × Except String Unit
  | [] => ([], .ok ())
  | .request name req :: rest =>
    match JsWorker.run handlers name req with
    | .error e => ([], .error e)
    | .ok resp =>
      (resp :: (jsworkerExecute handlers rest).1, (jsworkerExecute handlers rest).2)
  | .shutdown :: _ => ([], .ok ())

/-- One serialized operation on `AppState.workers`.  Both
`AppState::send` and `AppState::update_worker` run entirely under the
`workers` mutex, so every execution is some interleaving-free sequence of
these operations. -/
inductive RegOp where
  | sendReq (handler : String) (req : Req)
  | updateWorker (newInbox : Nat)
deriving Repr

/-- Registry state for one host: the inbox id currently registered in the
map, and the queued messages of each inbox (inbox 0 is the one created by
`AppState::new`). -/
structure RegState where
  current : Nat
  queues : List (Nat × List WorkerMessage)

def initRegState : RegState := { current := 0, queues := [(0, [])] }

def enqueue (queues : List (Nat × List WorkerMessage)) (inbox : Nat)
    (msg : WorkerMessage) : List (Nat × List WorkerMessage) :=
  queues.map (fun kv => if kv.1 = inbox then (kv.1, kv.2 ++ [msg]) else kv)

/-- Execute one serialized registry operation.  `sendReq` looks up the
current sender and enqueues a request message on it.  `updateWorker`
creates a fresh inbox (with a new worker consuming it), installs it as
current, and sends `Shutdown` on the previously installed inbox. -/
def regStep (s : RegState) : RegOp → RegState
  | .sendReq h r => { s with queues := enqueue s.queues s.current (.request h r) }
  | .updateWorker newInbox =>
    { current := newInbox
      queues := enqueue (s.queues ++ [(newInbox, [])]) s.current .shutdown }

def regRun (s : RegState) (ops : List RegOp) : RegState :=
  ops.foldl regStep s

def queueOf (s : RegState) (inbox : Nat) : List WorkerMessage :=
  match s.queues.find? (fun kv => kv.1 = inbox) with
  | some kv => kv.2
  | none => []

/- The `SwappableAppRouter::load` / `swap` race (`router.rs`).

`load` reads the `ArcSwap` cell twice:

    AppRouter { routes: self.routes.load_full().routes.clone(),
                code:   self.routes.load_full().code.clone() }

Each `load_full` is individually atomic, but a `swap` (one atomic
`store`) can land between the two.  For one `load` racing one `swap`
there are three placements of the store relative to the two reads. -/

inductive SwapPoint where
  | beforeBoth
  | between
  | afterBoth
deriving DecidableEq, Repr

/-- The `AppRouter` returned by `load` when one `swap old → new` runs
concurrently, by placement of the store of the swap. -/
def loadDuringSwap (old new : AppRouter) : SwapPoint → AppRouter
  | .beforeBoth => { routes := new.routes, code := new.code }
  | .between => { routes := old.routes, code := new.code }
  | .afterBoth => { routes := old.routes, code := old.code }

/- Build artifact hashing (`dino/src/utils.rs`, `dino/src/lib.rs`).

The filesystem under the project directory is a list of (path, byte
content) pairs in arbitrary enumeration order.  The BLAKE3 hex digest
itself is an external library function; it enters the model as an
explicit parameter `hashHex` from the concatenated bytes to the 64-char
hex string, so every property proved below holds for the real digest. -/

structure SrcFile where
  path : String
  content : List Nat
deriving DecidableEq, Repr

/-- Whether a path matches the glob `dir/**/*.<ext>` for one of the
given extensions (`**` matches zero or more components, so anything
under `dir/`). -/
def globMatches (dir : String) (exts : List String) (p : String) : Bool :=
  (dir ++ "/").data.isPrefixOf p.data
    && exts.any (fun e => ("." ++ e).data.isSuffixOf p.data)

/-- Path order on files, the `BTreeSet<PathBuf>` key order. -/
def pathLe (a b : SrcFile) : Prop := a.path ≤ b.path

instance : DecidableRel pathLe := fun a b =>
  inferInstanceAs (Decidable (a.path ≤ b.path))

instance : IsTotal SrcFile pathLe := ⟨fun a b => le_total a.path b.path⟩

instance : IsTrans SrcFile pathLe := ⟨fun _ _ _ h h2 => le_trans h h2⟩

/-- Model of `get_files_with_exts`: glob every extension and collect all matches
into a `BTreeSet`, i.e. a list sorted by path, independent of the order
the filesystem enumerates entries. -/
def getFilesWithExts (dir : String) (exts : List String) (fs : List SrcFile) :
    List SrcFile :=
  (fs.filter (fun f => globMatches dir exts f.path)).foldl
    (fun acc f => acc.orderedInsert pathLe f) []

/-- Model of `calc_hash_for_files`: feed the bytes of each matching file to the hasher
in sorted path order, hex-format the digest and truncate to `len`. -/
def calcHashForFiles (hashHex : List Nat → String) (dir : String)
    (exts : List String) (len : Nat) (fs : List SrcFile) : String :=
  String.mk ((hashHex ((getFilesWithExts dir exts fs).foldl
    (fun acc f => acc ++ f.content) [])).data.take len)

/-- Model of `calc_project_hash`: extensions `ts`, `js`, `json`, length 16. -/
def calcProjectHash (hashHex : List Nat → String) (dir : String)
    (fs : List SrcFile) : String :=
  calcHashForFiles hashHex dir ["ts", "js", "json"] 16 fs

/-- Model of `BUILD_DIR` from `dino/src/lib.rs`. -/
def buildDir : String := ".build"

/-- The filesystem writes `build_project` performs when the artifact is
not already present. -/
inductive BuildAction where
  | writeBundle (path : String)
  | writeConfig (path : String)
deriving DecidableEq, Repr

/-- Model of `build_project(dir)`: compute the hash, name the artifact
`.build/<hash>.mjs`; if that file already exists return its path with no
further work, otherwise bundle and write `<hash>.mjs` and `<hash>.yml`.
`existing` is the set of paths already present in the build directory. -/
def buildProject (hashHex : List Nat → String) (dir : String)
    (fs : List SrcFile) (existing : List String) : String × List BuildAction :=
  let hash := calcProjectHash hashHex dir fs
  let filename := buildDir ++ "/" ++ hash ++ ".mjs"
  if existing.contains filename then
    (filename, [])
  else
    (filename, [.writeBundle filename, .writeConfig (buildDir ++ "/" ++ hash ++ ".yml")])

/- Concrete fixtures shared by several theorems: a tenant `example.com`
with the single route `GET /api/hello/\x7bid\x7d -> hello`, an identity
handler, and a handler that throws. -/

def sampleRoutes : ProjectRoutes :=
  [("/api/hello/{id}", [{ method := .get, handler := "hello" }])]

def sampleRouter : AppRouter :=
  (tryNew "bundle-v1" sampleRoutes).toOption.getD { routes := [], code := "" }

def sampleTenants : List (String × AppRouter) := [("example.com", sampleRouter)]

/-- A stub worker send that always answers 200 (a healthy worker). -/
def okSend : String → String → Req → Except String Resp :=
  fun _ _ _ => .ok { status := 200, headers := [], body := none }

/-- The identity handler of the spec:
`(req) => (\x7bstatus:200, headers:req.headers, body:req.body\x7d)`. -/
def identityHandlerFn : JSVal → Except String JSVal :=
  fun v => .ok (.vobj [("status", .vnum 200), ("headers", objGet v "headers"),
                       ("body", objGet v "body")])

def idHandlers : Handlers := [("hello", identityHandlerFn)]

/-- A send that forwards to a real worker holding `idHandlers`. -/
def workerSend : String → String → Req → Except String Resp :=
  fun _ name req => JsWorker.run idHandlers name req

/-- A handler table with one throwing handler and one working handler. -/
def boomHandlers : Handlers :=
  [("boom", fun _ => .error "TypeError: kaboom"), ("hello", identityHandlerFn)]

def sampleReq : Req :=
  { headers := [], query := [], params := [], body := some "hi",
    url := "/api/hello/42", method := "GET" }

/-- C1: the claim says no-path-match yields 404 and method-without-handler
yields 405.  In the code both `match_it` failures are `anyhow!` errors,
which `#[from]` converts to `AppError::Anyhow`, mapped to 500 by
`IntoResponse`; only the unknown-host part of the claim holds (404, via
`RoutePathNotFound`).  Evaluation of the pipeline at the failing inputs:
`GET /api/nope` (no pattern) gives 500, not 404; `POST /api/hello/42`
(pattern matches, no POST handler) gives 500, not 405; an unregistered
host gives 404. -/
theorem c1_match_errors_map_to_500 :
    handlerHttpStatus sampleTenants okSend
      { host := "example.com", method := .get, path := "/api/nope",
        query := [], headers := [], body := "" } = 500
    ∧ handlerHttpStatus sampleTenants okSend
      { host := "example.com", method := .post, path := "/api/hello/42",
        query := [], headers := [], body := "" } = 500
    ∧ handlerHttpStatus sampleTenants okSend
      { host := "nosuch.com", method := .get, path := "/api/hello/42",
        query := [], headers := [], body := "" } = 404 := by
  refine ⟨?_, ?_, ?_⟩ <;> decide

/-- C2: the claim says a handler error is sent through the reply channel
and the worker loop continues.  In the code `worker.run(..)?` propagates
the error out of the receive loop: no reply is sent for the failing
request and the queued next request is never served.  Evaluation: with a
throwing first handler (or a missing handler name) the loop delivers no
replies at all and exits with the error, while the same queue with
healthy handlers is fully served. -/
theorem c2_worker_loop_exits_on_handler_error :
    jsworkerExecute boomHandlers
      [.request "boom" sampleReq, .request "hello" sampleReq]
      = ([], .error "TypeError: kaboom")
    ∧ jsworkerExecute boomHandlers
      [.request "nosuch" sampleReq, .request "hello" sampleReq]
      = ([], .error "handler not found: nosuch")
    ∧ jsworkerExecute boomHandlers
      [.request "hello" sampleReq, .request "hello" sampleReq]
      = ([{ status := 200, headers := [], body := some "hi" },
          { status := 200, headers := [], body := some "hi" }], .ok ()) :=
  ⟨rfl, rfl, rfl⟩

def snapV1 : AppRouter :=
  (tryNew "bundle-v1" [("/a", [{ method := .get, handler := "ha" }])]).toOption.getD
    { routes := [], code := "" }

def snapV2 : AppRouter :=
  (tryNew "bundle-v2" [("/b", [{ method := .get, handler := "hb" }])]).toOption.getD
    { routes := [], code := "" }

/-- C3: the claim says `load()` never returns a torn snapshot.  The code
reads the `ArcSwap` cell twice (`load_full()` once for `routes`, once for
`code`), so the interleaving in which the swap store lands between the
two reads returns the route trie of the pre-swap snapshot paired with the
code of the post-swap snapshot — equal to neither installed snapshot.
The two interleavings with the store outside the reads do return an
installed snapshot. -/
theorem c3_load_can_return_torn_snapshot :
    loadDuringSwap snapV1 snapV2 .between ≠ snapV1
    ∧ loadDuringSwap snapV1 snapV2 .between ≠ snapV2
    ∧ (loadDuringSwap snapV1 snapV2 .between).routes = snapV1.routes
    ∧ (loadDuringSwap snapV1 snapV2 .between).code = snapV2.code
    ∧ loadDuringSwap snapV1 snapV2 .beforeBoth = snapV2
    ∧ loadDuringSwap snapV1 snapV2 .afterBoth = snapV1 := by
  refine ⟨?_, ?_, rfl, rfl, rfl, rfl⟩ <;> decide

/-- C4: the claim says the identity handler round-trips headers and body
of the HTTP request.  The body does round-trip, but `assemble_req` builds
the interpreter request with `headers(HashMap::new())`, so a request
carrying the header `x-custom: 1` comes back from the identity handler
with an empty header map, not its own headers.  Evaluation of the full
pipeline (marshalling, identity handler, unmarshalling) at such a
request. -/
theorem c4_identity_handler_drops_request_headers :
    handlerPipeline sampleTenants workerSend
      { host := "example.com", method := .get, path := "/api/hello/42",
        query := [], headers := [("x-custom", "1")], body := "hi" }
      = .ok { status := 200, headers := [], body := some "hi" }
    ∧ ([] : List (String × String)) ≠ [("x-custom", "1")] := by
  refine ⟨?_, by decide⟩
  rfl

/-- C6 counterexample: the claim says a return object with a valid status
and no `headers` property unmarshals successfully into an empty header
map.  The derived `FromJs` does `obj.get("headers")?`, and converting the
resulting `undefined` into a `HashMap` is a type error, so unmarshalling
fails instead. -/
theorem c6_counterexample_absent_headers_fail :
    respFromJs (.vobj [("status", .vnum 200)])
      = .error "cannot convert value to object" := rfl

/-- C7: the claim says an out-of-range status is packaged as a
script/marshalling error and never causes a panic while converting `Resp`
into an HTTP response.  In the code unmarshalling accepts any `u16`
status (1000 converts fine), `From<Resp> for Response` then `.unwrap()`s
the builder: status 1000 (or 99) makes `StatusCode` construction fail and
the conversion panic (modelled as `none`), while 600 — outside the
claimed [100, 599] — is served as-is. -/
theorem c7_out_of_range_status_unchecked_then_panics :
    respFromJs (.vobj [("status", .vnum 1000), ("headers", .vobj []), ("body", .nullv)])
      = .ok { status := 1000, headers := [], body := none }
    ∧ respToResponse { status := 1000, headers := [], body := none } = none
    ∧ respToResponse { status := 99, headers := [], body := none } = none
    ∧ respToResponse { status := 600, headers := [], body := none }
      = some { status := 600, headers := [], body := "" } :=
  ⟨rfl, by decide, by decide, by decide⟩

/-- C8 counterexample: the claim says hosts differing only in letter case
resolve to the same tenant.  The code only strips the port; lookup is by
exact string, so `EXAMPLE.com:8080` does not resolve to the tenant
registered as `example.com`, while `example.com:8080` does. -/
theorem c8_counterexample_case_not_normalised :
    normalizeHost "EXAMPLE.com:8080" ≠ normalizeHost "example.com"
    ∧ getRouterForHost sampleTenants (normalizeHost "EXAMPLE.com:8080")
      = .error (.routePathNotFound "EXAMPLE.com")
    ∧ getRouterForHost sampleTenants (normalizeHost "example.com:8080")
      = .ok sampleRouter :=
  ⟨by decide, rfl, rfl⟩

/-- C6 amended: for a handler return object with a valid numeric status,
an absent `headers` property is a marshalling error (the generated
`FromJs` performs a required `obj.get("headers")` with no default, and
`undefined` does not convert to a map); it does not default to an empty
header map.  `body` may be absent or null, in which case unmarshalling
succeeds with `body = None` (when `headers` is present). -/
theorem c6_amended_headers_required_body_optional (n : Nat) (hn : n < 65536) :
    respFromJs (.vobj [("status", .vnum n)]) = .error "cannot convert value to object"
    ∧ respFromJs (.vobj [("status", .vnum n), ("headers", .vobj [])])
      = .ok { status := n, headers := [], body := none }
    ∧ respFromJs (.vobj [("status", .vnum n), ("headers", .vobj []), ("body", .nullv)])
      = .ok { status := n, headers := [], body := none } := by
  refine ⟨?_, ?_, ?_⟩ <;>
    simp [respFromJs, objGet, u16FromJs, strMapFromJs, optStrFromJs, List.find?, hn,
      Bind.bind, Except.bind, List.mapM, List.mapM.loop, Pure.pure, Except.pure]

theorem c6_amended_witness :
    200 < 65536
    ∧ respFromJs (.vobj [("status", .vnum 200)]) = .error "cannot convert value to object" :=
  ⟨by decide, (c6_amended_headers_required_body_optional 200 (by decide)).1⟩

lemma takeWhile_append_of_all {pred : Char → Bool} (l₁ l₂ : List Char)
    (hall : ∀ c ∈ l₁, pred c = true) :
    (l₁ ++ l₂).takeWhile pred = l₁ ++ l₂.takeWhile pred := by
  induction l₁ with
  | nil => simp
  | cons a t ih =>
    have ha := hall a (List.mem_cons_self a t)
    simp [List.takeWhile_cons, ha,
      ih (fun c hc => hall c (List.mem_cons_of_mem a hc))]

/-- C8 amended: host normalisation consists exactly of stripping
everything from the first `:` — `example.com:8080` and `example.com`
resolve to the same tenant — but no case normalisation is performed (the
code never case-folds the host, so hosts differing only in letter case
resolve by exact string comparison, generally to different tenants). -/
theorem c8_amended_port_stripped_case_preserved (h p : String)
    (hcolon : (':' : Char) ∉ h.data) :
    normalizeHost (h ++ ":" ++ p) = h
    ∧ normalizeHost h = h
    ∧ ∀ routers : List (String × AppRouter),
        getRouterForHost routers (normalizeHost (h ++ ":" ++ p))
          = getRouterForHost routers (normalizeHost h) := by
  have hall : ∀ c ∈ h.data, (fun c => decide ¬(c = ':')) c = true :=
    fun c hc => decide_eq_true (fun heq => hcolon (heq ▸ hc))
  have hdata : (h ++ ":" ++ p).data = h.data ++ ':' :: p.data := by
    show (h.data ++ [':']) ++ p.data = h.data ++ ':' :: p.data
    simp
  have h1 : normalizeHost (h ++ ":" ++ p) = h := by
    unfold normalizeHost
    rw [hdata, takeWhile_append_of_all _ _ hall]
    simp [List.takeWhile_cons]
  have h2 : normalizeHost h = h := by
    unfold normalizeHost
    rw [List.takeWhile_eq_self_iff.mpr hall]
  exact ⟨h1, h2, fun routers => by rw [h1, h2]⟩

theorem c8_amended_witness :
    ((':' : Char) ∉ "example.com".data)
    ∧ normalizeHost ("example.com" ++ ":" ++ "8080") = "example.com" :=
  ⟨by decide,
   (c8_amended_port_stripped_case_preserved "example.com" "8080" (by decide)).1⟩

/- Development for C10: the fold in `get_router` keeps, per method, the
handler of the last route entry with that method. -/

lemma set_lookup (mr : MethodRoute) (m m' : Method) (handler : String) :
    (mr.set m' handler).lookup m = if m' = m then some handler else mr.lookup m := by
  cases m' <;> cases m <;> simp [MethodRoute.set, MethodRoute.lookup]

lemma default_lookup (m : Method) : (({} : MethodRoute)).lookup m = none := by
  cases m <;> rfl

lemma getLast?_cons_or {α : Type} (a : α) (l : List α) :
    (a :: l).getLast? = match l.getLast? with
      | some x => some x
      | none => some a := by
  induction l generalizing a with
  | nil => rfl
  | cons b t ih =>
    rw [List.getLast?_cons_cons, ih b]
    cases t.getLast? <;> rfl

lemma lookup_foldl_set (l : List ProjectRoute) (mr : MethodRoute) (m : Method) :
    (l.foldl (fun acc pr => acc.set pr.method pr.handler) mr).lookup m =
      match ((l.filter (fun e => e.method = m)).map ProjectRoute.handler).getLast? with
      | some s => some s
      | none => mr.lookup m := by
  induction l generalizing mr with
  | nil => rfl
  | cons e t ih =>
    rw [List.foldl_cons, ih]
    by_cases hem : e.method = m
    · rw [List.filter_cons_of_pos (by simpa using hem), List.map_cons,
        getLast?_cons_or, set_lookup, if_pos hem]
      cases ((t.filter (fun e => e.method = m)).map ProjectRoute.handler).getLast? <;> rfl
    · rw [List.filter_cons_of_neg (by simpa using hem), set_lookup, if_neg hem]

/-- C10: a route list for one path may contain several entries with the
same method; `try_new` and `swap` succeed (no duplicate-method error —
the fold just reassigns the field), and the built `MethodRoute` maps that
method to the handler of the last such entry. -/
theorem c10_duplicate_methods_last_wins
    (code path : String) (entries : List ProjectRoute) (m : Method) (hname : String)
    (_hdup : 2 ≤ (entries.filter (fun e => e.method = m)).length)
    (hlast : ((entries.filter (fun e => e.method = m)).map ProjectRoute.handler).getLast?
      = some hname) :
    tryNew code [(path, entries)]
      = .ok { routes := [(path, buildMethodRoute entries)], code := code }
    ∧ swapSnapshot code [(path, entries)]
      = .ok { routes := [(path, buildMethodRoute entries)], code := code }
    ∧ (buildMethodRoute entries).lookup m = some hname := by
  refine ⟨rfl, rfl, ?_⟩
  rw [buildMethodRoute, lookup_foldl_set, hlast]

theorem c10_witness :
    (2 ≤ (([⟨.get, "a"⟩, ⟨.get, "b"⟩] : List ProjectRoute).filter
        (fun e => e.method = .get)).length)
    ∧ (buildMethodRoute [⟨.get, "a"⟩, ⟨.get, "b"⟩]).lookup .get = some "b" :=
  ⟨by decide,
   (c10_duplicate_methods_last_wins "code" "/p" [⟨.get, "a"⟩, ⟨.get, "b"⟩] .get "b"
     (by decide) (by decide)).2.2⟩

/- Development for C5: serialized registry operations and the drain of
the old inbox. -/

lemma regRun_sends_one (c : Nat) (sends : List (String × Req)) :
    ∀ msgs : List WorkerMessage,
      regRun ⟨c, [(c, msgs)]⟩ (sends.map (fun p => RegOp.sendReq p.1 p.2)) =
        ⟨c, [(c, msgs ++ sends.map (fun p => WorkerMessage.request p.1 p.2))]⟩ := by
  induction sends with
  | nil => intro msgs; simp [regRun]
  | cons q t ih =>
    intro msgs
    have hstep : regStep ⟨c, [(c, msgs)]⟩ (RegOp.sendReq q.1 q.2)
        = (⟨c, [(c, msgs ++ [WorkerMessage.request q.1 q.2])]⟩ : RegState) := by
      simp [regStep, enqueue]
    simp only [List.map_cons, regRun, List.foldl_cons, hstep]
    have := ih (msgs ++ [WorkerMessage.request q.1 q.2])
    simp only [regRun] at this
    rw [this]
    simp

lemma regRun_sends_pair (c k : Nat) (hk : ¬c = k) (sends : List (String × Req)) :
    ∀ m0 mk : List WorkerMessage,
      regRun ⟨k, [(c, m0), (k, mk)]⟩ (sends.map (fun p => RegOp.sendReq p.1 p.2)) =
        ⟨k, [(c, m0), (k, mk ++ sends.map (fun p => WorkerMessage.request p.1 p.2))]⟩ := by
  induction sends with
  | nil => intro m0 mk; simp [regRun]
  | cons q t ih =>
    intro m0 mk
    have hstep : regStep ⟨k, [(c, m0), (k, mk)]⟩ (RegOp.sendReq q.1 q.2)
        = (⟨k, [(c, m0), (k, mk ++ [WorkerMessage.request q.1 q.2])]⟩ : RegState) := by
      simp [regStep, enqueue, hk]
    simp only [List.map_cons, regRun, List.foldl_cons, hstep]
    have := ih m0 (mk ++ [WorkerMessage.request q.1 q.2])
    simp only [regRun] at this
    rw [this]
    simp

lemma jsworkerExecute_drain (handlers : Handlers) (pre : List (String × Req))
    (hok : ∀ q ∈ pre, ∃ r, JsWorker.run handlers q.1 q.2 = Except.ok r) :
    jsworkerExecute handlers
        ((pre.map (fun p => WorkerMessage.request p.1 p.2)) ++ [WorkerMessage.shutdown])
      = (pre.filterMap (fun p => (JsWorker.run handlers p.1 p.2).toOption),
         Except.ok ()) := by
  induction pre with
  | nil => rfl
  | cons q t ih =>
    obtain ⟨r, hr⟩ := hok q (List.mem_cons_self q t)
    have ih' := ih (fun w hw => hok w (List.mem_cons_of_mem q hw))
    simp only [List.map_cons, List.cons_append, jsworkerExecute, hr, List.append_eq, ih',
      List.filterMap_cons, Except.toOption]

lemma filterMap_toOption_length (handlers : Handlers) (pre : List (String × Req))
    (hok : ∀ q ∈ pre, ∃ r, JsWorker.run handlers q.1 q.2 = Except.ok r) :
    (pre.filterMap (fun p => (JsWorker.run handlers p.1 p.2).toOption)).length
      = pre.length := by
  induction pre with
  | nil => rfl
  | cons q t ih =>
    obtain ⟨r, hr⟩ := hok q (List.mem_cons_self q t)
    have ih' := ih (fun w hw => hok w (List.mem_cons_of_mem q hw))
    have hfq : (fun p : String × Req => (JsWorker.run handlers p.1 p.2).toOption) q
        = some r := by
      show (JsWorker.run handlers q.1 q.2).toOption = some r
      rw [hr]
      rfl
    simp only [List.filterMap_cons, hfq, List.length_cons, ih']

/-- C5: under the `workers` mutex every send and every `update_worker`
is one serialized operation.  For any requests `pre` sent before the
replacement and `post` sent after it: the old inbox (id 0) ends up with
exactly the `pre` requests, in order, followed by `Shutdown`; the new
inbox (fresh id `k`) receives exactly the `post` requests, in order,
none dropped; and the old worker loop serves every `pre` request —
delivering its reply — in enqueue order before exiting at `Shutdown`
(provided each such handler invocation succeeds; a failing one is claim
C2's concern). -/
theorem c5_update_worker_drains_old_and_routes_new
    (handlers : Handlers) (pre post : List (String × Req)) (k : Nat)
    (hk : k ≠ 0)
    (hok : ∀ q ∈ pre, ∃ r, JsWorker.run handlers q.1 q.2 = Except.ok r) :
    queueOf (regRun initRegState
        ((pre.map (fun p => RegOp.sendReq p.1 p.2))
          ++ RegOp.updateWorker k :: (post.map (fun p => RegOp.sendReq p.1 p.2)))) 0
      = (pre.map (fun p => WorkerMessage.request p.1 p.2)) ++ [WorkerMessage.shutdown]
    ∧ queueOf (regRun initRegState
        ((pre.map (fun p => RegOp.sendReq p.1 p.2))
          ++ RegOp.updateWorker k :: (post.map (fun p => RegOp.sendReq p.1 p.2)))) k
      = post.map (fun p => WorkerMessage.request p.1 p.2)
    ∧ jsworkerExecute handlers
        ((pre.map (fun p => WorkerMessage.request p.1 p.2)) ++ [WorkerMessage.shutdown])
      = (pre.filterMap (fun p => (JsWorker.run handlers p.1 p.2).toOption),
         Except.ok ())
    ∧ (pre.filterMap (fun p => (JsWorker.run handlers p.1 p.2).toOption)).length
      = pre.length := by
  have h0k : ¬(0 : Nat) = k := fun hh => hk hh.symm
  have hsplit : regRun initRegState
      ((pre.map (fun p => RegOp.sendReq p.1 p.2))
        ++ RegOp.updateWorker k :: (post.map (fun p => RegOp.sendReq p.1 p.2)))
      = ⟨k, [(0, (pre.map (fun p => WorkerMessage.request p.1 p.2))
              ++ [WorkerMessage.shutdown]),
            (k, post.map (fun p => WorkerMessage.request p.1 p.2))]⟩ := by
    rw [regRun, List.foldl_append]
    have hpre := regRun_sends_one 0 pre []
    simp only [regRun, List.nil_append] at hpre
    rw [show (initRegState : RegState) = ⟨0, [(0, [])]⟩ from rfl, hpre]
    rw [List.foldl_cons]
    have hupd : regStep ⟨0, [(0, pre.map (fun p => WorkerMessage.request p.1 p.2))]⟩
        (RegOp.updateWorker k)
        = (⟨k, [(0, (pre.map (fun p => WorkerMessage.request p.1 p.2))
                ++ [WorkerMessage.shutdown]), (k, [])]⟩ : RegState) := by
      simp [regStep, enqueue, hk]
    rw [hupd]
    have hpost := regRun_sends_pair 0 k h0k post
      ((pre.map (fun p => WorkerMessage.request p.1 p.2)) ++ [WorkerMessage.shutdown]) []
    simp only [regRun, List.nil_append] at hpost
    rw [hpost]
  refine ⟨?_, ?_, jsworkerExecute_drain handlers pre hok,
    filterMap_toOption_length handlers pre hok⟩
  · rw [hsplit]; simp [queueOf, List.find?]
  · rw [hsplit]; simp [queueOf, List.find?, h0k]

theorem c5_witness :
    (1 ≠ 0)
    ∧ queueOf (regRun initRegState
        (([("hello", sampleReq)].map (fun p => RegOp.sendReq p.1 p.2))
          ++ RegOp.updateWorker 1
            :: ([("hello", sampleReq)].map (fun p => RegOp.sendReq p.1 p.2)))) 0
      = ([("hello", sampleReq)].map (fun p => WorkerMessage.request p.1 p.2))
          ++ [WorkerMessage.shutdown] :=
  ⟨by decide,
   (c5_update_worker_drains_old_and_routes_new idHandlers
     [("hello", sampleReq)] [("hello", sampleReq)] 1 (by decide)
     (fun q hq => by
       rw [List.mem_singleton] at hq
       subst hq
       exact ⟨_, rfl⟩)).1⟩

/- Development for C9: the `BTreeSet` collection step makes
`get_files_with_exts` independent of filesystem enumeration order, hence
`build_project` is deterministic in it. -/

/-- Strict path order, used to identify two sorted lists. -/
def pathLt (a b : SrcFile) : Prop := a.path < b.path

instance : IsAntisymm SrcFile pathLt :=
  ⟨fun _ _ hab hba => absurd hba (lt_asymm hab)⟩

lemma foldl_orderedInsert_perm (l : List SrcFile) :
    ∀ acc : List SrcFile,
      (l.foldl (fun acc f => acc.orderedInsert pathLe f) acc).Perm (l ++ acc) := by
  induction l with
  | nil => intro acc; simp
  | cons x t ih =>
    intro acc
    exact (ih _).trans
      (((List.perm_orderedInsert pathLe x acc).append_left t).trans List.perm_middle)

lemma foldl_orderedInsert_sorted (l : List SrcFile) :
    ∀ acc : List SrcFile, acc.Sorted pathLe →
      (l.foldl (fun acc f => acc.orderedInsert pathLe f) acc).Sorted pathLe := by
  induction l with
  | nil => intro acc hacc; exact hacc
  | cons x t ih =>
    intro acc hacc
    exact ih _ (List.Sorted.orderedInsert x acc hacc)

lemma eq_of_perm_sorted_nodup_paths (l₁ l₂ : List SrcFile)
    (hp : l₁.Perm l₂) (hs₁ : l₁.Sorted pathLe) (hs₂ : l₂.Sorted pathLe)
    (hnd : (l₁.map SrcFile.path).Nodup) : l₁ = l₂ := by
  have hne₁ : l₁.Pairwise (fun a b => a.path ≠ b.path) := List.pairwise_map.mp hnd
  have hnd₂ : (l₂.map SrcFile.path).Nodup := (hp.map SrcFile.path).nodup hnd
  have hne₂ : l₂.Pairwise (fun a b => a.path ≠ b.path) := List.pairwise_map.mp hnd₂
  have hlt₁ : l₁.Sorted pathLt :=
    (hs₁.and hne₁).imp (fun hab => lt_of_le_of_ne hab.1 hab.2)
  have hlt₂ : l₂.Sorted pathLt :=
    (hs₂.and hne₂).imp (fun hab => lt_of_le_of_ne hab.1 hab.2)
  exact List.eq_of_perm_of_sorted hp hlt₁ hlt₂

lemma getFilesWithExts_perm_invariant (dir : String) (exts : List String)
    (fs₁ fs₂ : List SrcFile) (hperm : fs₁.Perm fs₂)
    (hnodup : (fs₁.map SrcFile.path).Nodup) :
    getFilesWithExts dir exts fs₁ = getFilesWithExts dir exts fs₂ := by
  have hpf : (fs₁.filter (fun f => globMatches dir exts f.path)).Perm
      (fs₂.filter (fun f => globMatches dir exts f.path)) := hperm.filter _
  have hnd₁ : ((fs₁.filter (fun f => globMatches dir exts f.path)).map SrcFile.path).Nodup :=
    ((fs₁.filter_sublist).map SrcFile.path).nodup hnodup
  have h₁ := foldl_orderedInsert_perm (fs₁.filter (fun f => globMatches dir exts f.path)) []
  have h₂ := foldl_orderedInsert_perm (fs₂.filter (fun f => globMatches dir exts f.path)) []
  simp only [List.append_nil] at h₁ h₂
  refine eq_of_perm_sorted_nodup_paths _ _ (h₁.trans (hpf.trans h₂.symm))
    (foldl_orderedInsert_sorted _ [] List.sorted_nil)
    (foldl_orderedInsert_sorted _ [] List.sorted_nil) ?_
  exact (h₁.map SrcFile.path).symm.nodup hnd₁

/-- C9: `build_project` names its artifact `.build/<hash>.mjs` where the
hash is the 16-character truncation of the digest of the `ts|js|json`
files under `dir` read in sorted path order; the result is independent of
the order the filesystem enumerates the files (any permutation of the
file list gives the same artifact path and actions); and when the
hash-named artifact already exists the build performs no write actions
and returns that path.  `hashHex` abstracts the BLAKE3 hex digest, so the
statement holds for every digest function. -/
theorem c9_build_project_deterministic
    (hashHex : List Nat → String) (dir : String)
    (fs₁ fs₂ : List SrcFile) (existing : List String)
    (hperm : fs₁.Perm fs₂)
    (hnodup : (fs₁.map SrcFile.path).Nodup) :
    buildProject hashHex dir fs₁ existing = buildProject hashHex dir fs₂ existing
    ∧ (buildProject hashHex dir fs₁ existing).1
      = buildDir ++ "/" ++ calcProjectHash hashHex dir fs₁ ++ ".mjs"
    ∧ calcProjectHash hashHex dir fs₁
      = String.mk ((hashHex ((getFilesWithExts dir ["ts", "js", "json"] fs₁).foldl
          (fun acc f => acc ++ f.content) [])).data.take 16)
    ∧ (existing.contains (buildDir ++ "/" ++ calcProjectHash hashHex dir fs₁ ++ ".mjs")
          = true
        → (buildProject hashHex dir fs₁ existing).2 = []) := by
  have hfiles := getFilesWithExts_perm_invariant dir ["ts", "js", "json"] fs₁ fs₂
    hperm hnodup
  have hhash : calcProjectHash hashHex dir fs₁ = calcProjectHash hashHex dir fs₂ := by
    rw [calcProjectHash, calcProjectHash, calcHashForFiles, calcHashForFiles, hfiles]
  refine ⟨?_, ?_, rfl, ?_⟩
  · rw [buildProject, buildProject, hhash]
  · rw [buildProject]
    by_cases hex : existing.contains (buildDir ++ "/" ++ calcProjectHash hashHex dir fs₁
        ++ ".mjs") = true
    · simp only [hex, if_pos]
    · simp only [Bool.not_eq_true] at hex
      simp only [hex, Bool.false_eq_true, if_false]
  · intro hex
    rw [buildProject]
    simp only [hex, if_pos]

theorem c9_witness :
    (([⟨"p/b.ts", [2]⟩, ⟨"p/a.ts", [1]⟩] : List SrcFile).Perm
        [⟨"p/a.ts", [1]⟩, ⟨"p/b.ts", [2]⟩])
    ∧ (([⟨"p/b.ts", [2]⟩, ⟨"p/a.ts", [1]⟩] : List SrcFile).map SrcFile.path).Nodup
    ∧ buildProject (fun _ => String.mk (List.replicate 64 'a')) "p"
        [⟨"p/b.ts", [2]⟩, ⟨"p/a.ts", [1]⟩] []
      = buildProject (fun _ => String.mk (List.replicate 64 'a')) "p"
        [⟨"p/a.ts", [1]⟩, ⟨"p/b.ts", [2]⟩] [] :=
  ⟨by decide, by decide,
   (c9_build_project_deterministic (fun _ => String.mk (List.replicate 64 'a')) "p"
     [⟨"p/b.ts", [2]⟩, ⟨"p/a.ts", [1]⟩] [⟨"p/a.ts", [1]⟩, ⟨"p/b.ts", [2]⟩] []
     (by decide) (by decide)).1⟩

end Dino
